import Mathlib

/-!
# PaymentsAPI: the five repository handlers over a model of the payments table

Source files embedded here:
* `PaymentsAPI/go-fiber-postgres/models/payments.go` (the row type `models.Payments`)
* `PaymentsAPI/go-fiber-postgres/main.go` (the request type `Payment` and the handlers
  `CreatePayment`, `GetPayments`, `DeletePayment`, `GetPaymentID`, `UpdatePayment`)

The handlers talk to a relational table through an object-relational mapper.  The table is
modelled as a list of rows in storage order plus the counter behind the auto-incremented key;
each mapper call used by the handlers (`Create`, `Find`, `First`, `Save`, `Updates`) is a
function on that state.  Two things the handlers cannot see are inputs of the model:

* `Env.coerce`: how storage casts the text bound to `id = ?` to the key type (a text that is
  not a key makes the statement fail);
* `Env.fault`: whether the k-th storage call of the request is failed by storage
  (connection lost, statement rejected for a reason outside the model).

Assumptions of the model: a failed call leaves the table as it was; a select returns the rows
in storage order; a column holds the value that was written to it (no rounding of amounts
or dates on the way in or out).

A handler writes JSON responses to the request context and returns an error or nil; what the
client receives is decided afterwards by the application (`Outcome.answer`): a returned error
is answered by the default error handler, which replaces what the handler wrote.

Amounts (`float32`) and dates (`time.Time`) are only moved around by the handlers, never
computed with, so the development is generic in their types `A` and `T`; `default` stands
for the zero value of the Go type.
-/

namespace PaymentsAPI

/-! ## Data model -/

namespace models

/-- Row of the payments table (`models.Payments`): a key and nullable columns. -/
structure Payments (A T : Type) where
  ID : Nat
  CreditorAcc : Option String
  DebtorAcc : Option String
  Currency : Option String
  Amount : Option A
  Date : Option T
  IsDeleted : Bool
  deriving DecidableEq, Repr

end models

/-- Request record of `CreatePayment` (`Payment` in main.go): no key, no nullable field. -/
structure Payment (A T : Type) where
  CreditorAcc : String
  DebtorAcc : String
  Currency : String
  Amount : A
  Date : T
  IsDeleted : Bool
  deriving DecidableEq, Repr

/-- Errors a handler can return to its caller. -/
inductive Error where
  | unprocessable
  | storage
  | recordNotFound
  deriving DecidableEq, Repr

/-- Values stored under a key of a `fiber.Map` response body. -/
inductive Value (A T : Type) where
  | str (s : String)
  | record (p : models.Payments A T)
  | records (ps : List (models.Payments A T))
  deriving DecidableEq, Repr

/-- One JSON response written to the request context: `context.Status(status).JSON(body)`. -/
structure Response (A T : Type) where
  status : Nat
  body : List (String × Value A T)
  deriving DecidableEq, Repr

def StatusOK : Nat := 200
def StatusBadRequest : Nat := 400
def StatusUnprocessableEntity : Nat := 422
def StatusInternalServerError : Nat := 500

/-- Whether the response body has the given key. -/
def Response.hasField {A T : Type} (r : Response A T) (k : String) : Bool :=
  r.body.any (fun kv => kv.1 == k)

/-! ## Storage -/

/-- State of the payments table: rows in storage order and the next value of the key
sequence (`autoIncrement`). -/
structure DB (A T : Type) where
  rows : List (models.Payments A T)
  seq : Nat
  deriving DecidableEq, Repr

/-- What the handlers cannot observe about storage: the cast of a path identifier to the key
type and the calls that storage fails (the k-th call of a request fails when `fault k`). -/
structure Env where
  coerce : String → Option Int
  fault : Nat → Bool

/-- Calls a handler makes on the storage handle `r.DB`, named after the mapper method. -/
inductive Call where
  | Create
  | Find
  | First
  | Save
  | Updates
  deriving DecidableEq, Repr

/-- Column assignment of the map given to `Updates` (`updateFields` in `UpdatePayment`). -/
inductive Assignment (A T : Type) where
  | amount (x : A)
  | date (t : T)
  deriving DecidableEq, Repr

/-- Primary key invariant of the table: keys are pairwise different, the sequence is
positive, and every key is positive and below the next value of the sequence. -/
def DB.WF {A T : Type} (db : DB A T) : Prop :=
  (db.rows.map (fun r => r.ID)).Nodup ∧ 0 < db.seq ∧ ∀ r ∈ db.rows, 0 < r.ID ∧ r.ID < db.seq

/-- Whether the row is selected by `WHERE id = k`. -/
def hasKey {A T : Type} (k : Int) (r : models.Payments A T) : Bool :=
  decide ((r.ID : Int) = k)

/-- Insert of a `Payment` (`r.DB.Create(&payment)`): every field of the struct is written as
given (a zero value is written as such, not as NULL) and the key comes from the sequence. -/
def DB.Create {A T : Type} (db : DB A T) (fault : Bool) (p : Payment A T) :
    Except Error (DB A T) :=
  if fault then .error .storage
  else .ok
    { rows := db.rows ++
        [{ ID := db.seq, CreditorAcc := some p.CreditorAcc, DebtorAcc := some p.DebtorAcc,
           Currency := some p.Currency, Amount := some p.Amount, Date := some p.Date,
           IsDeleted := p.IsDeleted }],
      seq := db.seq + 1 }

/-- Unconditional select of all rows (`r.DB.Find(paymentModels)`). -/
def DB.Find {A T : Type} (db : DB A T) (fault : Bool) :
    Except Error (List (models.Payments A T)) :=
  if fault then .error .storage else .ok db.rows

/-- Select of the first row with `id = ?` (`r.DB.Where("id = ?", id).First(m)`): fails when
storage fails, when the bound text is not a key, and when no row is selected. -/
def DB.First {A T : Type} (db : DB A T) (fault : Bool) (key : Option Int) :
    Except Error (models.Payments A T) :=
  if fault then .error .storage
  else match key with
    | none => .error .storage
    | some k =>
      match db.rows.find? (hasKey k) with
      | none => .error .recordNotFound
      | some r => .ok r

/-- Write of a whole record (`r.DB.Save(m)`): with a zero key the record is inserted under a
key from the sequence; otherwise every column of the rows with that key is overwritten, and
when no row has the key the record is inserted under it. -/
def DB.Save {A T : Type} (db : DB A T) (fault : Bool) (m : models.Payments A T) :
    Except Error (DB A T) :=
  if fault then .error .storage
  else if m.ID = 0 then
    .ok { rows := db.rows ++ [{ m with ID := db.seq }], seq := db.seq + 1 }
  else if db.rows.any (fun r => decide (r.ID = m.ID)) then
    .ok { db with rows := db.rows.map (fun r => if r.ID = m.ID then m else r) }
  else
    .ok { db with rows := db.rows ++ [m] }

/-- Effect of one column assignment on a row. -/
def Assignment.apply {A T : Type} (r : models.Payments A T) :
    Assignment A T → models.Payments A T
  | .amount x => { r with Amount := some x }
  | .date t => { r with Date := some t }

/-- Effect of `SET` with the given assignments on a row. -/
def setColumns {A T : Type} (fields : List (Assignment A T)) (r : models.Payments A T) :
    models.Payments A T :=
  fields.foldl Assignment.apply r

/-- Update of the listed columns in the rows with `id = ?`
(`r.DB.Model(&models.Payments{}).Where("id = ?", id).Updates(updateFields)`): the call fails
when storage fails; with no column to set the mapper sends no update statement, so nothing
is compared with the bound text and nothing changes; otherwise the statement fails when the
bound text is not a key, and else rewrites the selected rows. -/
def DB.Updates {A T : Type} (db : DB A T) (fault : Bool) (key : Option Int)
    (fields : List (Assignment A T)) : Except Error (DB A T) :=
  if fault then .error .storage
  else if fields.isEmpty then .ok db
  else match key with
    | none => .error .storage
    | some k =>
      .ok { db with rows := db.rows.map (fun r => if hasKey k r then setColumns fields r else r) }

/-! ## Requests -/

/-- JSON object sent to `CreatePayment`: every key may be absent. -/
structure CreateBody (A T : Type) where
  creditorAcc : Option String
  debtorAcc : Option String
  currency : Option String
  amount : Option A
  date : Option T
  isDeleted : Option Bool
  deriving DecidableEq, Repr

/-- JSON object sent to `UpdatePayment`, decoded into `updateData`: a pointer per key, nil
when the key is absent. -/
structure UpdateData (A T : Type) where
  Amount : Option A
  Date : Option T
  deriving DecidableEq, Repr

/-- Decoding of the request body into a value that starts as `Payment{}`
(`context.BodyParser(&payment)`): a body that cannot be decoded (`none`) is an error, and a
key that is absent leaves the zero value of its field. -/
def BodyParser {A T : Type} [Inhabited A] [Inhabited T] :
    Option (CreateBody A T) → Except Error (Payment A T)
  | none => .error .unprocessable
  | some b => .ok
    { CreditorAcc := b.creditorAcc.getD "", DebtorAcc := b.debtorAcc.getD "",
      Currency := b.currency.getD "", Amount := b.amount.getD default,
      Date := b.date.getD default, IsDeleted := b.isDeleted.getD false }

/-- Decoding of the request body into `updateData` (`context.BodyParser(&updateData)`). -/
def BodyParserUpdate {A T : Type} : Option (UpdateData A T) → Except Error (UpdateData A T)
  | none => .error .unprocessable
  | some b => .ok b

/-! ## Handlers -/

/-- Everything a handler call produces: the JSON responses it wrote (in order), the error it
returned (`nil` is `none`), the table afterwards, and the calls it made on the storage handle
(in order). -/
structure Outcome (A T : Type) where
  responses : List (Response A T)
  err : Option Error
  DB : DB A T
  calls : List Call
  deriving DecidableEq, Repr

/-- Repository of main.go: holds the storage handle. -/
structure Repository (A T : Type) where
  DB : DB A T
  deriving DecidableEq, Repr

/-- Handler `CreatePayment` (main.go lines 35-57). -/
def Repository.CreatePayment {A T : Type} [Inhabited A] [Inhabited T]
    (r : Repository A T) (env : Env) (body : Option (CreateBody A T)) : Outcome A T :=
  match BodyParser body with
  | .error err =>
    { responses := [⟨StatusUnprocessableEntity, [("message", .str "Request failed")]⟩],
      err := some err, DB := r.DB, calls := [] }
  | .ok payment =>
    match r.DB.Create (env.fault 0) payment with
    | .error err =>
      { responses := [⟨StatusBadRequest, [("message", .str "Could not create payment")]⟩],
        err := some err, DB := r.DB, calls := [.Create] }
    | .ok db =>
      { responses := [⟨StatusOK, [("message", .str "Payment has been added.")]⟩],
        err := none, DB := db, calls := [.Create] }

/-- Handler `GetPayments` (main.go lines 60-77). -/
def Repository.GetPayments {A T : Type} (r : Repository A T) (env : Env) : Outcome A T :=
  match r.DB.Find (env.fault 0) with
  | .error err =>
    { responses := [⟨StatusBadRequest, [("message", .str "Could not get the payments")]⟩],
      err := some err, DB := r.DB, calls := [.Find] }
  | .ok paymentModels =>
    { responses := [⟨StatusOK, [("message", .str "Payments fetched succesfully"),
                                ("data", .records paymentModels)]⟩],
      err := none, DB := r.DB, calls := [.Find] }

/-- Handler `DeletePayment` (main.go lines 80-114). -/
def Repository.DeletePayment {A T : Type} (r : Repository A T) (env : Env) (id : String) :
    Outcome A T :=
  if id = "" then
    { responses := [⟨StatusInternalServerError, [("message", .str "Id cannot be empty.")]⟩],
      err := none, DB := r.DB, calls := [] }
  else
    match r.DB.First (env.fault 0) (env.coerce id) with
    | .error err =>
      { responses := [⟨StatusBadRequest, [("message", .str "Could not find the payment")]⟩],
        err := some err, DB := r.DB, calls := [.First] }
    | .ok paymentModel =>
      match r.DB.Save (env.fault 1) { paymentModel with IsDeleted := true } with
      | .error err =>
        { responses := [⟨StatusBadRequest, [("message", .str "Could not update payment")]⟩],
          err := some err, DB := r.DB, calls := [.First, .Save] }
      | .ok db =>
        { responses := [⟨StatusOK, [("message", .str "Payment marked as deleted.")]⟩],
          err := none, DB := db, calls := [.First, .Save] }

/-- Handler `GetPaymentID` (main.go lines 117-141). -/
def Repository.GetPaymentID {A T : Type} (r : Repository A T) (env : Env) (id : String) :
    Outcome A T :=
  if id = "" then
    { responses := [⟨StatusInternalServerError, [("message", .str "Id could not be empty")]⟩],
      err := none, DB := r.DB, calls := [] }
  else
    match r.DB.First (env.fault 0) (env.coerce id) with
    | .error _ =>
      { responses := [⟨StatusBadRequest, [("message", .str "Could not get the payment")]⟩],
        err := none, DB := r.DB, calls := [.First] }
    | .ok paymentModel =>
      { responses := [⟨StatusOK, [("message", .str "Payment Id fetch successfully"),
                                  ("data", .record paymentModel)]⟩],
        err := none, DB := r.DB, calls := [.First] }

/-- The map `updateFields` built by `UpdatePayment` (main.go lines 160-166). -/
def updateFields {A T : Type} (updateData : UpdateData A T) : List (Assignment A T) :=
  (match updateData.Amount with
    | some x => [Assignment.amount x]
    | none => []) ++
  (match updateData.Date with
    | some t => [Assignment.date t]
    | none => [])

/-- Handler `UpdatePayment` (main.go lines 144-175). -/
def Repository.UpdatePayment {A T : Type} (r : Repository A T) (env : Env) (id : String)
    (body : Option (UpdateData A T)) : Outcome A T :=
  if id = "" then
    { responses := [⟨StatusBadRequest, [("message", .str "ID is required")]⟩],
      err := none, DB := r.DB, calls := [] }
  else
    match BodyParserUpdate body with
    | .error err =>
      { responses := [⟨StatusBadRequest, [("message", .str "Failed to parse request")]⟩],
        err := some err, DB := r.DB, calls := [] }
    | .ok updateData =>
      match r.DB.Updates (env.fault 0) (env.coerce id) (updateFields updateData) with
      | .error err =>
        { responses :=
            [⟨StatusInternalServerError, [("message", .str "Failed to update payment")]⟩],
          err := some err, DB := r.DB,
          calls := [.Updates] }
      | .ok db =>
        { responses := [⟨StatusOK, [("message", .str "Payment updated successfully")]⟩],
          err := none, DB := db,
          calls := [.Updates] }

/-- Repository as the next request finds it after a handler call. -/
def Outcome.repo {A T : Type} (o : Outcome A T) : Repository A T := { DB := o.DB }

/-! ## What the client receives -/

/-- Answer sent to the client: the status, and the JSON body when the body is the one the
handler wrote (`none` stands for the plain text body that holds the text of an error). -/
structure Answer (A T : Type) where
  status : Nat
  json : Option (List (String × Value A T))
  deriving DecidableEq, Repr

/-- Status chosen by the default error handler of the application (`fiber.New()` without a
configuration, main.go line 216) for an error returned by a handler: the code carried by the
error when it is a framework error, 500 otherwise.  The errors of the storage mapper carry no
code; `decodeCode` stands for the code of a body-decoding error (422 for an unsupported content
type, 500 for an error of the JSON decoder). -/
def DefaultErrorHandler (decodeCode : Nat) : Error → Nat
  | .unprocessable => decodeCode
  | .storage => StatusInternalServerError
  | .recordNotFound => StatusInternalServerError

/-- Answer of the application to a request served by a handler: when the handler returns an
error the default error handler replaces whatever the handler wrote by its own status and a
text body; when it returns nil the last response written stands. -/
def Outcome.answer {A T : Type} (o : Outcome A T) (decodeCode : Nat) : Option (Answer A T) :=
  match o.err with
  | some err => some { status := DefaultErrorHandler decodeCode err, json := none }
  | none => o.responses.getLast?.map (fun resp => { status := resp.status, json := some resp.body })

/-! ## A concrete environment and table for the examples -/

/-- Reading of a run of decimal digits, most significant first, onto an accumulator. -/
def readDigits : List Char → Nat → Option Nat
  | [], acc => some acc
  | c :: cs, acc =>
    if 48 ≤ c.toNat ∧ c.toNat ≤ 57 then readDigits cs (10 * acc + (c.toNat - 48)) else none

/-- Cast of a text to a key that accepts the non-empty runs of decimal digits. -/
def decimalKey (s : String) : Option Int :=
  match s.data with
  | [] => none
  | cs => (readDigits cs 0).map Int.ofNat

/-- Environment in which no statement is failed by storage. -/
def healthy : Env := { coerce := decimalKey, fault := fun _ => false }

/-- Environment in which storage fails every statement. -/
def failing : Env := { coerce := decimalKey, fault := fun _ => true }

/-- Table with two rows, the second one holding NULL columns. -/
def sampleDB : DB Int Int :=
  { rows :=
      [{ ID := 1, CreditorAcc := some "NL01", DebtorAcc := some "DE02", Currency := some "EUR",
         Amount := some 100, Date := some 20240101, IsDeleted := false },
       { ID := 2, CreditorAcc := none, DebtorAcc := none, Currency := some "USD",
         Amount := none, Date := none, IsDeleted := false }],
    seq := 3 }

/-- Repository over the sample table. -/
def sampleRepo : Repository Int Int := { DB := sampleDB }

/-! ## Facts about the storage calls -/

theorem find?_hasKey_none {A T : Type} (rows : List (models.Payments A T)) (k : Int)
    (h : ∀ p ∈ rows, some k ≠ some (p.ID : Int)) : rows.find? (hasKey k) = none := by
  rw [List.find?_eq_none]
  intro p hp hk
  apply h p hp
  simp only [hasKey, decide_eq_true_eq] at hk
  rw [hk]

theorem First_error_of_no_row {A T : Type} (db : DB A T) (fault : Bool) (key : Option Int)
    (h : ∀ p ∈ db.rows, key ≠ some (p.ID : Int)) : ∃ e, db.First fault key = .error e := by
  unfold DB.First
  cases fault
  · cases key with
    | none => exact ⟨_, rfl⟩
    | some k => simp [find?_hasKey_none db.rows k h]
  · exact ⟨_, rfl⟩

theorem hasKey_cast_iff {A T : Type} (p q : models.Payments A T) :
    hasKey (q.ID : Int) p = true ↔ p.ID = q.ID := by
  simp [hasKey]

theorem hasKey_false_of_no_row {A T : Type} (rows : List (models.Payments A T)) (k : Int)
    (h : ∀ p ∈ rows, some k ≠ some (p.ID : Int)) : ∀ p ∈ rows, hasKey k p = false := by
  intro p hp
  have := h p hp
  simp only [hasKey, decide_eq_false_iff_not]
  intro hk
  exact this (by rw [hk])

theorem setColumns_frame {A T : Type} (fields : List (Assignment A T))
    (p : models.Payments A T) :
    (setColumns fields p).ID = p.ID ∧ (setColumns fields p).CreditorAcc = p.CreditorAcc ∧
    (setColumns fields p).DebtorAcc = p.DebtorAcc ∧ (setColumns fields p).Currency = p.Currency ∧
    (setColumns fields p).IsDeleted = p.IsDeleted := by
  induction fields generalizing p with
  | nil => simp [setColumns]
  | cons f fs ih =>
    have h := ih (Assignment.apply p f)
    simp only [setColumns, List.foldl_cons] at h ⊢
    cases f <;> simpa [Assignment.apply] using h

theorem setColumns_amount_only {A T : Type} (x : A) (p : models.Payments A T) :
    setColumns (updateFields (⟨some x, none⟩ : UpdateData A T)) p = { p with Amount := some x } := by
  simp [setColumns, updateFields, Assignment.apply]

theorem setColumns_date_only {A T : Type} (t : T) (p : models.Payments A T) :
    setColumns (updateFields (⟨none, some t⟩ : UpdateData A T)) p = { p with Date := some t } := by
  simp [setColumns, updateFields, Assignment.apply]

theorem setColumns_keeps_amount {A T : Type} (d : UpdateData A T) (h : d.Amount = none)
    (p : models.Payments A T) : (setColumns (updateFields d) p).Amount = p.Amount := by
  cases hd : d.Date <;> simp [setColumns, updateFields, Assignment.apply, h, hd]

theorem setColumns_keeps_date {A T : Type} (d : UpdateData A T) (h : d.Date = none)
    (p : models.Payments A T) : (setColumns (updateFields d) p).Date = p.Date := by
  cases hd : d.Amount <;> simp [setColumns, updateFields, Assignment.apply, h, hd]

/-- The table after `UpdatePayment` is the old one, or the old one with the listed columns
set in the rows selected by a key that the path identifier casts to. -/
theorem UpdatePayment_DB_cases {A T : Type} (r : Repository A T) (env : Env) (id : String)
    (body : Option (UpdateData A T)) :
    (r.UpdatePayment env id body).DB = r.DB ∨
    ∃ d k, body = some d ∧ env.coerce id = some k ∧
      (r.UpdatePayment env id body).DB =
        { r.DB with
          rows := r.DB.rows.map
            (fun p => if hasKey k p then setColumns (updateFields d) p else p) } := by
  unfold Repository.UpdatePayment
  split
  · exact Or.inl rfl
  · cases body with
    | none => exact Or.inl rfl
    | some d =>
      simp only [BodyParserUpdate, DB.Updates]
      split_ifs with h1 h2
      · exact Or.inl rfl
      · exact Or.inl rfl
      · cases hk : env.coerce id with
        | none => exact Or.inl rfl
        | some k => exact Or.inr ⟨d, k, rfl, rfl, rfl⟩

/-- A successful `UpdatePayment` that sets at least one column. -/
theorem UpdatePayment_ok {A T : Type} (r : Repository A T) (env : Env) (id : String)
    (d : UpdateData A T) (k : Int) (hid : id ≠ "") (hne : (updateFields d).isEmpty = false)
    (hkey : env.coerce id = some k) (hok : env.fault 0 = false) :
    r.UpdatePayment env id (some d) =
      { responses := [⟨200, [("message", Value.str "Payment updated successfully")]⟩],
        err := none,
        DB := { r.DB with
                rows := r.DB.rows.map
                  (fun p => if hasKey k p then setColumns (updateFields d) p else p) },
        calls := [Call.Updates] } := by
  simp [Repository.UpdatePayment, hid, BodyParserUpdate, DB.Updates, hne, hkey, hok, StatusOK]

theorem forall₂_map_self {α : Type} {R : α → α → Prop} (f : α → α) (l : List α)
    (h : ∀ a ∈ l, R a (f a)) : List.Forall₂ R l (l.map f) := by
  induction l with
  | nil => exact List.Forall₂.nil
  | cons a l ih =>
    exact List.Forall₂.cons (h a (List.mem_cons_self a l))
      (ih (fun b hb => h b (List.mem_cons_of_mem a hb)))

theorem forall₂_self {α : Type} {R : α → α → Prop} (l : List α) (h : ∀ a ∈ l, R a a) :
    List.Forall₂ R l l := by
  have := forall₂_map_self (R := R) id l h
  simpa using this

/-- Under the primary key invariant two stored rows with the same key are the same row. -/
theorem eq_of_ID_eq {A T : Type} {rows : List (models.Payments A T)}
    (hnd : (rows.map (fun r => r.ID)).Nodup) {p q : models.Payments A T}
    (hp : p ∈ rows) (hq : q ∈ rows) (h : p.ID = q.ID) : p = q :=
  List.inj_on_of_nodup_map hnd hp hq h

theorem find?_hasKey_some {A T : Type} {rows : List (models.Payments A T)}
    (hnd : (rows.map (fun r => r.ID)).Nodup) {row : models.Payments A T} (hrow : row ∈ rows) :
    rows.find? (hasKey (row.ID : Int)) = some row := by
  cases h : rows.find? (hasKey (row.ID : Int)) with
  | none =>
    rw [List.find?_eq_none] at h
    exact absurd ((hasKey_cast_iff row row).mpr rfl) (h row hrow)
  | some q =>
    have hq := List.mem_of_find?_eq_some h
    have hk := List.find?_some h
    rw [hasKey_cast_iff] at hk
    rw [eq_of_ID_eq hnd hq hrow hk]

/-- A successful `DeletePayment`: under the primary key invariant, for the id of a stored row
and a storage that runs both statements. -/
theorem DeletePayment_ok {A T : Type} (r : Repository A T) (env : Env) (id : String)
    (row : models.Payments A T) (hwf : r.DB.WF) (hid : id ≠ "") (hrow : row ∈ r.DB.rows)
    (hkey : env.coerce id = some (row.ID : Int)) (hread : env.fault 0 = false)
    (hsave : env.fault 1 = false) :
    r.DeletePayment env id =
      { responses := [⟨200, [("message", Value.str "Payment marked as deleted.")]⟩],
        err := none,
        DB := { r.DB with
                rows := r.DB.rows.map
                  (fun p => if p.ID = row.ID then { p with IsDeleted := true } else p) },
        calls := [Call.First, Call.Save] } := by
  have hpos : row.ID ≠ 0 := Nat.pos_iff_ne_zero.mp (hwf.2.2 row hrow).1
  have hany : (r.DB.rows.any fun p => decide (p.ID = row.ID)) = true :=
    List.any_eq_true.mpr ⟨row, hrow, by simp⟩
  have hmap : r.DB.rows.map (fun p => if p.ID = row.ID then
        ({ row with IsDeleted := true } : models.Payments A T) else p) =
      r.DB.rows.map (fun p => if p.ID = row.ID then { p with IsDeleted := true } else p) := by
    apply List.map_congr_left
    intro p hp
    split_ifs with h
    · rw [eq_of_ID_eq hwf.1 hp hrow h]
    · rfl
  simp [Repository.DeletePayment, hid, DB.First, hread, hkey, find?_hasKey_some hwf.1 hrow,
    DB.Save, hsave, hpos, hany, hmap, StatusOK]

/-- The table after `DeletePayment` is the old one, or the old one with the flag set in the
rows that carry the key of a stored row which the path identifier casts to. -/
theorem DeletePayment_DB_cases {A T : Type} (r : Repository A T) (env : Env) (id : String)
    (hwf : r.DB.WF) :
    (r.DeletePayment env id).DB = r.DB ∨
    ∃ row ∈ r.DB.rows, env.coerce id = some (row.ID : Int) ∧
      (r.DeletePayment env id).DB =
        { r.DB with
          rows := r.DB.rows.map
            (fun p => if p.ID = row.ID then { p with IsDeleted := true } else p) } := by
  by_cases hid : id = ""
  · left; simp [Repository.DeletePayment, hid]
  cases hread : env.fault 0 with
  | true => left; simp [Repository.DeletePayment, hid, DB.First, hread]
  | false =>
  cases hsave : env.fault 1 with
  | true =>
    left
    unfold Repository.DeletePayment
    simp only [hid, if_false]
    split
    · rfl
    · simp [DB.Save, hsave]
  | false =>
  cases hk : env.coerce id with
  | none => left; simp [Repository.DeletePayment, hid, DB.First, hread, hk]
  | some k =>
    cases hf : r.DB.rows.find? (hasKey k) with
    | none => left; simp [Repository.DeletePayment, hid, DB.First, hread, hk, hf]
    | some row =>
      have hrow := List.mem_of_find?_eq_some hf
      have hkr : (row.ID : Int) = k := by simpa [hasKey] using List.find?_some hf
      right
      refine ⟨row, hrow, by rw [hkr], ?_⟩
      rw [DeletePayment_ok r env id row hwf hid hrow (by rw [hk, hkr]) hread hsave]

theorem UpdatePayment_same_keys {A T : Type} (r : Repository A T) (env : Env) (id : String)
    (body : Option (UpdateData A T)) :
    (r.UpdatePayment env id body).DB.rows.map (fun p => p.ID) = r.DB.rows.map (fun p => p.ID) ∧
    (r.UpdatePayment env id body).DB.seq = r.DB.seq := by
  rcases UpdatePayment_DB_cases r env id body with h | ⟨d, k, -, -, h⟩
  · rw [h]
    exact ⟨rfl, rfl⟩
  · rw [h]
    refine ⟨?_, rfl⟩
    simp only [List.map_map]
    apply List.map_congr_left
    intro p _
    simp only [Function.comp_apply]
    split_ifs
    · exact (setColumns_frame (updateFields d) p).1
    · rfl

theorem DeletePayment_same_keys {A T : Type} (r : Repository A T) (env : Env) (id : String)
    (hwf : r.DB.WF) :
    (r.DeletePayment env id).DB.rows.map (fun p => p.ID) = r.DB.rows.map (fun p => p.ID) ∧
    (r.DeletePayment env id).DB.seq = r.DB.seq := by
  rcases DeletePayment_DB_cases r env id hwf with h | ⟨row, -, -, h⟩
  · rw [h]
    exact ⟨rfl, rfl⟩
  · rw [h]
    refine ⟨?_, rfl⟩
    simp only [List.map_map]
    apply List.map_congr_left
    intro p _
    simp only [Function.comp_apply]
    split_ifs <;> rfl

/-! ## Error responses -/

/-- What the two handlers write for a non-empty id that matches no stored row: a single
response with status 400, and the table is left as it was. -/
theorem unknown_id_writes_400 {A T : Type} (r : Repository A T) (env : Env) (id : String)
    (hid : id ≠ "") (hno : ∀ p ∈ r.DB.rows, env.coerce id ≠ some (p.ID : Int)) :
    ((r.GetPaymentID env id).responses.map Response.status = [400] ∧
      (r.GetPaymentID env id).DB = r.DB) ∧
    ((r.DeletePayment env id).responses.map Response.status = [400] ∧
      (r.DeletePayment env id).DB = r.DB) := by
  obtain ⟨e, he⟩ := First_error_of_no_row r.DB (env.fault 0) (env.coerce id) hno
  simp [Repository.GetPaymentID, Repository.DeletePayment, hid, he, StatusBadRequest]

/-- The lookup of a key that matches no stored row fails with an error of the storage
mapper, never with a body-decoding error. -/
theorem First_error_kind {A T : Type} (db : DB A T) (fault : Bool) (key : Option Int)
    (e : Error) (h : db.First fault key = .error e) :
    e = Error.storage ∨ e = Error.recordNotFound := by
  unfold DB.First at h
  split_ifs at h
  · exact Or.inl (by cases h; rfl)
  · split at h
    · exact Or.inl (by cases h; rfl)
    · split at h
      · exact Or.inr (by cases h; rfl)
      · cases h

/-- What the client receives for a non-empty id that matches no stored row, whatever the
table and the environment are: `GetPaymentID` returns nil, so its 400 response stands;
`DeletePayment` returns the lookup error, so the default error handler answers 500 with a
text body in place of the 400 response the handler wrote. -/
theorem unknown_id_answers {A T : Type} (r : Repository A T) (env : Env) (id : String)
    (decodeCode : Nat) (hid : id ≠ "")
    (hno : ∀ p ∈ r.DB.rows, env.coerce id ≠ some (p.ID : Int)) :
    (r.GetPaymentID env id).answer decodeCode =
      some ⟨400, some [("message", Value.str "Could not get the payment")]⟩ ∧
    (r.DeletePayment env id).answer decodeCode = some ⟨500, none⟩ := by
  obtain ⟨e, he⟩ := First_error_of_no_row r.DB (env.fault 0) (env.coerce id) hno
  rcases First_error_kind r.DB (env.fault 0) (env.coerce id) e he with rfl | rfl <;>
    simp [Repository.GetPaymentID, Repository.DeletePayment, hid, he, Outcome.answer,
      DefaultErrorHandler, StatusBadRequest, StatusInternalServerError]

/-- C2, at the failing input: the id 999 is non-empty and matches no row of the sample table,
and storage is healthy.  `GetPaymentID` writes 400, returns nil and the client receives that
400.  `DeletePayment` writes 400 as well but returns the lookup error, so the client receives
500 with a text body, not 400.  The table is unchanged in both cases. -/
theorem delete_unknown_id_answered_500 :
    ("999" ≠ "" ∧ ∀ p ∈ sampleRepo.DB.rows, healthy.coerce "999" ≠ some (p.ID : Int)) ∧
    ((sampleRepo.GetPaymentID healthy "999").responses.map Response.status = [400] ∧
      (sampleRepo.GetPaymentID healthy "999").err = none ∧
      (sampleRepo.GetPaymentID healthy "999").answer 422 =
        some ⟨400, some [("message", Value.str "Could not get the payment")]⟩ ∧
      (sampleRepo.GetPaymentID healthy "999").DB = sampleRepo.DB) ∧
    ((sampleRepo.DeletePayment healthy "999").responses.map Response.status = [400] ∧
      (sampleRepo.DeletePayment healthy "999").err = some Error.recordNotFound ∧
      (sampleRepo.DeletePayment healthy "999").answer 422 = some ⟨500, none⟩ ∧
      (sampleRepo.DeletePayment healthy "999").DB = sampleRepo.DB) := by
  decide

/-- C5: with the empty path identifier `GetPaymentID` and `DeletePayment` respond 500 and
`UpdatePayment` responds 400, whatever the table, the environment and the body are; in all
three cases no statement is sent to storage and the table is left as it was. -/
theorem empty_id_statuses {A T : Type} (r : Repository A T) (env : Env)
    (body : Option (UpdateData A T)) :
    ((r.GetPaymentID env "").responses.map Response.status = [500] ∧
      (r.GetPaymentID env "").calls = [] ∧ (r.GetPaymentID env "").DB = r.DB) ∧
    ((r.DeletePayment env "").responses.map Response.status = [500] ∧
      (r.DeletePayment env "").calls = [] ∧ (r.DeletePayment env "").DB = r.DB) ∧
    ((r.UpdatePayment env "" body).responses.map Response.status = [400] ∧
      (r.UpdatePayment env "" body).calls = [] ∧ (r.UpdatePayment env "" body).DB = r.DB) := by
  simp [Repository.GetPaymentID, Repository.DeletePayment, Repository.UpdatePayment,
    StatusBadRequest, StatusInternalServerError]

/-- C7: status mapping of `CreatePayment`.  A body that fails to deserialize gets 422, the
error is returned and the table is unchanged; a failed insert gets 400 and the error is
returned; otherwise the single response is 200 with a body holding the message key only
(no data, no assigned id) and no error is returned. -/
theorem create_status_mapping {A T : Type} [Inhabited A] [Inhabited T]
    (r : Repository A T) (env : Env) (b : CreateBody A T) :
    ((r.CreatePayment env none).responses.map Response.status = [422] ∧
      (r.CreatePayment env none).err = some Error.unprocessable ∧
      (r.CreatePayment env none).DB = r.DB) ∧
    (env.fault 0 = true →
      (r.CreatePayment env (some b)).responses.map Response.status = [400] ∧
      (r.CreatePayment env (some b)).err = some Error.storage) ∧
    (env.fault 0 = false →
      (r.CreatePayment env (some b)).responses =
        [⟨200, [("message", Value.str "Payment has been added.")]⟩] ∧
      (r.CreatePayment env (some b)).err = none) := by
  refine ⟨?_, ?_, ?_⟩
  · simp [Repository.CreatePayment, BodyParser, StatusUnprocessableEntity]
  · intro h
    simp [Repository.CreatePayment, BodyParser, DB.Create, h, StatusBadRequest]
  · intro h
    simp [Repository.CreatePayment, BodyParser, DB.Create, h, StatusOK]

theorem create_status_mapping_witness :
    (failing.fault 0 = true ∧
      (sampleRepo.CreatePayment failing
          (some ⟨none, none, some "USD", some 100, none, none⟩)).responses.map
        Response.status = [400] ∧
      (sampleRepo.CreatePayment failing
          (some ⟨none, none, some "USD", some 100, none, none⟩)).err = some Error.storage) ∧
    (healthy.fault 0 = false ∧
      (sampleRepo.CreatePayment healthy
          (some ⟨none, none, some "USD", some 100, none, none⟩)).responses =
        [⟨200, [("message", Value.str "Payment has been added.")]⟩] ∧
      (sampleRepo.CreatePayment healthy
          (some ⟨none, none, some "USD", some 100, none, none⟩)).err = none) :=
  ⟨⟨rfl, (create_status_mapping sampleRepo failing
      ⟨none, none, some "USD", some 100, none, none⟩).2.1 rfl⟩,
   ⟨rfl, (create_status_mapping sampleRepo healthy
      ⟨none, none, some "USD", some 100, none, none⟩).2.2 rfl⟩⟩

/-! ## Shape of the responses -/

/-- C9, as stated, fails: `GetPaymentID` is a read operation, and for an id that matches no
row its single response is 400 with the message key only, without a data key. -/
theorem read_error_has_no_data :
    (sampleRepo.GetPaymentID healthy "999").responses =
      [⟨400, [("message", Value.str "Could not get the payment")]⟩] ∧
    (sampleRepo.GetPaymentID healthy "999").responses.map (fun resp => resp.hasField "data") =
      [false] := by
  decide

/-- C9, amended: each of the five handlers writes exactly one JSON response and that response
has a message key; for the read operations `GetPayments` and `GetPaymentID` the response has a
data key exactly when its status is 200, and the responses of the other three handlers never
have one. -/
theorem one_response_each {A T : Type} [Inhabited A] [Inhabited T]
    (r : Repository A T) (env : Env) (id : String) (cbody : Option (CreateBody A T))
    (ubody : Option (UpdateData A T)) :
    (∃ resp, (r.CreatePayment env cbody).responses = [resp] ∧
      resp.hasField "message" = true ∧ resp.hasField "data" = false) ∧
    (∃ resp, (r.GetPayments env).responses = [resp] ∧
      resp.hasField "message" = true ∧ (resp.hasField "data" = true ↔ resp.status = 200)) ∧
    (∃ resp, (r.GetPaymentID env id).responses = [resp] ∧
      resp.hasField "message" = true ∧ (resp.hasField "data" = true ↔ resp.status = 200)) ∧
    (∃ resp, (r.UpdatePayment env id ubody).responses = [resp] ∧
      resp.hasField "message" = true ∧ resp.hasField "data" = false) ∧
    (∃ resp, (r.DeletePayment env id).responses = [resp] ∧
      resp.hasField "message" = true ∧ resp.hasField "data" = false) := by
  refine ⟨?_, ?_, ?_, ?_, ?_⟩
  · unfold Repository.CreatePayment
    split
    · exact ⟨_, rfl, by simp [Response.hasField], by simp [Response.hasField]⟩
    · split
      · exact ⟨_, rfl, by simp [Response.hasField], by simp [Response.hasField]⟩
      · exact ⟨_, rfl, by simp [Response.hasField], by simp [Response.hasField]⟩
  · unfold Repository.GetPayments
    split
    · exact ⟨_, rfl, by simp [Response.hasField],
        by simp [Response.hasField, StatusBadRequest]⟩
    · exact ⟨_, rfl, by simp [Response.hasField], by simp [Response.hasField, StatusOK]⟩
  · unfold Repository.GetPaymentID
    split
    · exact ⟨_, rfl, by simp [Response.hasField],
        by simp [Response.hasField, StatusInternalServerError]⟩
    · split
      · exact ⟨_, rfl, by simp [Response.hasField],
          by simp [Response.hasField, StatusBadRequest]⟩
      · exact ⟨_, rfl, by simp [Response.hasField], by simp [Response.hasField, StatusOK]⟩
  · unfold Repository.UpdatePayment
    split
    · exact ⟨_, rfl, by simp [Response.hasField], by simp [Response.hasField]⟩
    · split
      · exact ⟨_, rfl, by simp [Response.hasField], by simp [Response.hasField]⟩
      · split
        · exact ⟨_, rfl, by simp [Response.hasField], by simp [Response.hasField]⟩
        · exact ⟨_, rfl, by simp [Response.hasField], by simp [Response.hasField]⟩
  · unfold Repository.DeletePayment
    split
    · exact ⟨_, rfl, by simp [Response.hasField], by simp [Response.hasField]⟩
    · split
      · exact ⟨_, rfl, by simp [Response.hasField], by simp [Response.hasField]⟩
      · split
        · exact ⟨_, rfl, by simp [Response.hasField], by simp [Response.hasField]⟩
        · exact ⟨_, rfl, by simp [Response.hasField], by simp [Response.hasField]⟩

/-! ## Creation -/

/-- C4: for every payload that deserializes (to the record `P`) and whose insert succeeds,
`CreatePayment` followed by a `GetPayments` whose select succeeds returns 200 with a list that
includes a record whose creditorAcc, debtorAcc, currency, amount, date and isDeleted equal the
fields of `P`. -/
theorem create_then_list {A T : Type} [Inhabited A] [Inhabited T]
    (r : Repository A T) (env env' : Env) (body : Option (CreateBody A T)) (P : Payment A T)
    (hparse : BodyParser body = .ok P) (hinsert : env.fault 0 = false)
    (hlist : env'.fault 0 = false) :
    ∃ ps rec,
      ((r.CreatePayment env body).repo.GetPayments env').responses =
        [⟨200, [("message", Value.str "Payments fetched succesfully"),
                ("data", Value.records ps)]⟩] ∧
      rec ∈ ps ∧
      rec.CreditorAcc = some P.CreditorAcc ∧ rec.DebtorAcc = some P.DebtorAcc ∧
      rec.Currency = some P.Currency ∧ rec.Amount = some P.Amount ∧
      rec.Date = some P.Date ∧ rec.IsDeleted = P.IsDeleted := by
  refine ⟨r.DB.rows ++ [⟨r.DB.seq, some P.CreditorAcc, some P.DebtorAcc, some P.Currency,
    some P.Amount, some P.Date, P.IsDeleted⟩], ⟨r.DB.seq, some P.CreditorAcc, some P.DebtorAcc,
    some P.Currency, some P.Amount, some P.Date, P.IsDeleted⟩, ?_, by simp, rfl, rfl, rfl, rfl,
    rfl, rfl⟩
  simp [Repository.CreatePayment, hparse, DB.Create, hinsert, Outcome.repo,
    Repository.GetPayments, DB.Find, hlist, StatusOK]

theorem create_then_list_witness :
    (BodyParser (some ⟨none, none, some "USD", some 100, none, none⟩) =
        .ok (⟨"", "", "USD", 100, 0, false⟩ : Payment Int Int) ∧
      healthy.fault 0 = false) ∧
    ∃ ps rec,
      ((sampleRepo.CreatePayment healthy
          (some ⟨none, none, some "USD", some 100, none, none⟩)).repo.GetPayments
        healthy).responses =
        [⟨200, [("message", Value.str "Payments fetched succesfully"),
                ("data", Value.records ps)]⟩] ∧
      rec ∈ ps ∧
      rec.CreditorAcc = some "" ∧ rec.DebtorAcc = some "" ∧
      rec.Currency = some "USD" ∧ rec.Amount = some 100 ∧
      rec.Date = some 0 ∧ rec.IsDeleted = false :=
  ⟨⟨rfl, rfl⟩, create_then_list sampleRepo healthy healthy
    (some ⟨none, none, some "USD", some 100, none, none⟩) ⟨"", "", "USD", 100, 0, false⟩
    rfl rfl rfl⟩

theorem CreatePayment_rows {A T : Type} [Inhabited A] [Inhabited T]
    (r : Repository A T) (env : Env) (b : CreateBody A T) (hinsert : env.fault 0 = false) :
    (r.CreatePayment env (some b)).DB.rows = r.DB.rows ++
      [⟨r.DB.seq, some (b.creditorAcc.getD ""), some (b.debtorAcc.getD ""),
        some (b.currency.getD ""), some (b.amount.getD default), some (b.date.getD default),
        b.isDeleted.getD false⟩] := by
  simp [Repository.CreatePayment, BodyParser, DB.Create, hinsert]

/-- C10: `CreatePayment` takes isDeleted from the client payload.  When the insert succeeds
the table gains exactly one record; for the payload that holds only `isDeleted = true` that
record is marked deleted right after creation, and for every payload the new record has
isDeleted false exactly when the payload omits the key or supplies false. -/
theorem create_takes_isDeleted {A T : Type} [Inhabited A] [Inhabited T]
    (r : Repository A T) (env : Env) (hinsert : env.fault 0 = false) :
    (∃ rec, (r.CreatePayment env
          (some ⟨none, none, none, none, none, some true⟩)).DB.rows = r.DB.rows ++ [rec] ∧
        rec.IsDeleted = true) ∧
    ∀ b : CreateBody A T, ∃ rec,
      (r.CreatePayment env (some b)).DB.rows = r.DB.rows ++ [rec] ∧
      (rec.IsDeleted = false ↔ (b.isDeleted = none ∨ b.isDeleted = some false)) := by
  constructor
  · exact ⟨_, CreatePayment_rows r env _ hinsert, rfl⟩
  · intro b
    refine ⟨_, CreatePayment_rows r env b hinsert, ?_⟩
    cases hb : b.isDeleted with
    | none => simp
    | some v => cases v <;> simp

theorem create_takes_isDeleted_witness :
    healthy.fault 0 = false ∧
    ((∃ rec, (sampleRepo.CreatePayment healthy
          (some ⟨none, none, none, none, none, some true⟩)).DB.rows =
          sampleRepo.DB.rows ++ [rec] ∧
        rec.IsDeleted = true) ∧
    ∀ b : CreateBody Int Int, ∃ rec,
      (sampleRepo.CreatePayment healthy (some b)).DB.rows = sampleRepo.DB.rows ++ [rec] ∧
      (rec.IsDeleted = false ↔ (b.isDeleted = none ∨ b.isDeleted = some false))) :=
  ⟨rfl, create_takes_isDeleted sampleRepo healthy rfl⟩

/-! ## Update -/

/-- C3: independence of the two fields of an update.  For an existing row, the id of that
row and a storage that runs the statement, a payload holding only the amount `x` rewrites that
row to the same row with amount `x` (date and every other column as before), and a payload
holding only the date `t` rewrites it to the same row with date `t` (amount as before).
For every request, a field that the payload omits is written in no row. -/
theorem partial_update_independence {A T : Type} (r : Repository A T) (env : Env)
    (id : String) (row : models.Payments A T) (x : A) (t : T)
    (hid : id ≠ "") (hrow : row ∈ r.DB.rows) (hkey : env.coerce id = some (row.ID : Int))
    (hok : env.fault 0 = false) :
    ((r.UpdatePayment env id (some ⟨some x, none⟩)).DB.rows =
        r.DB.rows.map (fun p => if p.ID = row.ID then { p with Amount := some x } else p) ∧
      { row with Amount := some x } ∈ (r.UpdatePayment env id (some ⟨some x, none⟩)).DB.rows) ∧
    ((r.UpdatePayment env id (some ⟨none, some t⟩)).DB.rows =
        r.DB.rows.map (fun p => if p.ID = row.ID then { p with Date := some t } else p) ∧
      { row with Date := some t } ∈ (r.UpdatePayment env id (some ⟨none, some t⟩)).DB.rows) ∧
    (∀ (env' : Env) (id' : String) (body : Option (UpdateData A T)),
      ((∀ d, body = some d → d.Amount = none) →
        (r.UpdatePayment env' id' body).DB.rows.map (fun p => p.Amount) =
          r.DB.rows.map (fun p => p.Amount)) ∧
      ((∀ d, body = some d → d.Date = none) →
        (r.UpdatePayment env' id' body).DB.rows.map (fun p => p.Date) =
          r.DB.rows.map (fun p => p.Date))) := by
  have hx : (r.UpdatePayment env id (some ⟨some x, none⟩)).DB.rows =
      r.DB.rows.map (fun p => if p.ID = row.ID then { p with Amount := some x } else p) := by
    rw [UpdatePayment_ok r env id ⟨some x, none⟩ _ hid (by simp [updateFields]) hkey hok]
    simp only [setColumns_amount_only, hasKey_cast_iff]
  have ht : (r.UpdatePayment env id (some ⟨none, some t⟩)).DB.rows =
      r.DB.rows.map (fun p => if p.ID = row.ID then { p with Date := some t } else p) := by
    rw [UpdatePayment_ok r env id ⟨none, some t⟩ _ hid (by simp [updateFields]) hkey hok]
    simp only [setColumns_date_only, hasKey_cast_iff]
  refine ⟨⟨hx, ?_⟩, ⟨ht, ?_⟩, ?_⟩
  · rw [hx]
    exact List.mem_map.mpr ⟨row, hrow, by simp⟩
  · rw [ht]
    exact List.mem_map.mpr ⟨row, hrow, by simp⟩
  · intro env' id' body
    constructor
    · intro hnone
      rcases UpdatePayment_DB_cases r env' id' body with h | ⟨d, k, hb, -, h⟩
      · rw [h]
      · rw [h]
        simp only [List.map_map]
        apply List.map_congr_left
        intro p _
        simp only [Function.comp_apply]
        split_ifs
        · exact setColumns_keeps_amount d (hnone d hb) p
        · rfl
    · intro hnone
      rcases UpdatePayment_DB_cases r env' id' body with h | ⟨d, k, hb, -, h⟩
      · rw [h]
      · rw [h]
        simp only [List.map_map]
        apply List.map_congr_left
        intro p _
        simp only [Function.comp_apply]
        split_ifs
        · exact setColumns_keeps_date d (hnone d hb) p
        · rfl

theorem partial_update_independence_witness :
    ("1" ≠ "" ∧
      (⟨1, some "NL01", some "DE02", some "EUR", some 100, some 20240101, false⟩ :
        models.Payments Int Int) ∈ sampleRepo.DB.rows ∧
      healthy.coerce "1" = some 1 ∧ healthy.fault 0 = false) ∧
    (sampleRepo.UpdatePayment healthy "1" (some ⟨some 200, none⟩)).DB.rows =
      [⟨1, some "NL01", some "DE02", some "EUR", some 200, some 20240101, false⟩,
       ⟨2, none, none, some "USD", none, none, false⟩] ∧
    (sampleRepo.UpdatePayment healthy "1" (some ⟨none, some 20250505⟩)).DB.rows =
      [⟨1, some "NL01", some "DE02", some "EUR", some 100, some 20250505, false⟩,
       ⟨2, none, none, some "USD", none, none, false⟩] :=
  ⟨⟨by decide, by decide, by decide, rfl⟩,
    ((partial_update_independence sampleRepo healthy "1"
      ⟨1, some "NL01", some "DE02", some "EUR", some 100, some 20240101, false⟩ 200 20250505
      (by decide) (by decide) (by decide) rfl).1.1).trans (by decide),
    ((partial_update_independence sampleRepo healthy "1"
      ⟨1, some "NL01", some "DE02", some "EUR", some 100, some 20240101, false⟩ 200 20250505
      (by decide) (by decide) (by decide) rfl).2.1.1).trans (by decide)⟩

/-- C6, as stated, fails: the id `abc` is non-empty and matches no stored row, the payload
`{"amount": 5}` deserializes, storage is healthy, and `UpdatePayment` responds 500 with the
failure message, because the statement that compares the key column with `abc` is rejected. -/
theorem update_unknown_id_can_fail :
    ("abc" ≠ "" ∧ ∀ p ∈ sampleRepo.DB.rows, healthy.coerce "abc" ≠ some (p.ID : Int)) ∧
    (sampleRepo.UpdatePayment healthy "abc" (some ⟨some 5, none⟩)).responses =
      [⟨500, [("message", Value.str "Failed to update payment")]⟩] := by
  decide

/-- C6, amended: `UpdatePayment` performs no existence check.  For every non-empty id that
matches no stored row and every payload that deserializes, when storage does not fail the call
and either the payload sets no field or the id casts to a key, it responds 200 with the
generic updated message and leaves the table unchanged. -/
theorem update_unknown_id {A T : Type} (r : Repository A T) (env : Env) (id : String)
    (d : UpdateData A T) (hid : id ≠ "")
    (hno : ∀ p ∈ r.DB.rows, env.coerce id ≠ some (p.ID : Int))
    (hok : env.fault 0 = false)
    (hcast : (d.Amount = none ∧ d.Date = none) ∨ (env.coerce id).isSome = true) :
    (r.UpdatePayment env id (some d)).responses =
      [⟨200, [("message", Value.str "Payment updated successfully")]⟩] ∧
    (r.UpdatePayment env id (some d)).DB = r.DB := by
  by_cases hne : (updateFields d).isEmpty = true
  · simp [Repository.UpdatePayment, hid, BodyParserUpdate, DB.Updates, hne, hok, StatusOK]
  · have hne' : (updateFields d).isEmpty = false := by simpa using hne
    rcases hcast with ⟨ha, hd⟩ | hsome
    · exact absurd (by simp [updateFields, ha, hd]) hne
    · obtain ⟨k, hk⟩ := Option.isSome_iff_exists.mp hsome
      rw [UpdatePayment_ok r env id d k hid hne' hk hok]
      refine ⟨rfl, ?_⟩
      have hfalse := hasKey_false_of_no_row r.DB.rows k (by rw [← hk]; exact hno)
      have hrows : r.DB.rows.map
          (fun p => if hasKey k p then setColumns (updateFields d) p else p) = r.DB.rows := by
        conv_rhs => rw [← List.map_id r.DB.rows]
        apply List.map_congr_left
        intro p hp
        simp [hfalse p hp]
      rw [hrows]

theorem update_unknown_id_witness :
    ("999" ≠ "" ∧ (∀ p ∈ sampleRepo.DB.rows, healthy.coerce "999" ≠ some (p.ID : Int)) ∧
      healthy.fault 0 = false ∧ (healthy.coerce "999").isSome = true) ∧
    (sampleRepo.UpdatePayment healthy "999" (some ⟨some 200, none⟩)).responses =
      [⟨200, [("message", Value.str "Payment updated successfully")]⟩] ∧
    (sampleRepo.UpdatePayment healthy "999" (some ⟨some 200, none⟩)).DB = sampleRepo.DB :=
  ⟨⟨by decide, by decide, rfl, by decide⟩,
    update_unknown_id sampleRepo healthy "999" ⟨some 200, none⟩ (by decide) (by decide)
      rfl (Or.inr (by decide))⟩

/-! ## Soft delete and the lifecycle of rows -/

/-- C1: soft delete.  For every table that satisfies the primary key invariant and every id
that matches a stored row, when storage runs the lookup and the save, `DeletePayment` responds
200, the keys in the table are the same as before, the table holds that row with isDeleted
true, and a following `GetPayments` (whose select runs) responds 200 with a list that holds
that record with isDeleted true. -/
theorem soft_delete {A T : Type} (r : Repository A T) (env env' : Env) (id : String)
    (row : models.Payments A T) (hwf : r.DB.WF) (hid : id ≠ "") (hrow : row ∈ r.DB.rows)
    (hkey : env.coerce id = some (row.ID : Int)) (hread : env.fault 0 = false)
    (hsave : env.fault 1 = false) (hlist : env'.fault 0 = false) :
    (r.DeletePayment env id).responses.map Response.status = [200] ∧
    (r.DeletePayment env id).DB.rows.map (fun p => p.ID) = r.DB.rows.map (fun p => p.ID) ∧
    { row with IsDeleted := true } ∈ (r.DeletePayment env id).DB.rows ∧
    ∃ ps,
      ((r.DeletePayment env id).repo.GetPayments env').responses =
        [⟨200, [("message", Value.str "Payments fetched succesfully"),
                ("data", Value.records ps)]⟩] ∧
      { row with IsDeleted := true } ∈ ps := by
  have hmem : ({ row with IsDeleted := true } : models.Payments A T) ∈
      r.DB.rows.map (fun p => if p.ID = row.ID then { p with IsDeleted := true } else p) :=
    List.mem_map.mpr ⟨row, hrow, by simp⟩
  rw [DeletePayment_ok r env id row hwf hid hrow hkey hread hsave]
  refine ⟨rfl, ?_, hmem, _, ?_, hmem⟩
  · simp only [List.map_map]
    apply List.map_congr_left
    intro p _
    simp only [Function.comp_apply]
    split_ifs <;> rfl
  · simp [Outcome.repo, Repository.GetPayments, DB.Find, hlist, StatusOK]

theorem soft_delete_witness :
    (sampleRepo.DB.WF ∧ "2" ≠ "" ∧
      (⟨2, none, none, some "USD", none, none, false⟩ : models.Payments Int Int) ∈
        sampleRepo.DB.rows ∧
      healthy.coerce "2" = some 2 ∧ healthy.fault 0 = false ∧ healthy.fault 1 = false) ∧
    (sampleRepo.DeletePayment healthy "2").responses.map Response.status = [200] ∧
    (sampleRepo.DeletePayment healthy "2").DB.rows.map (fun p => p.ID) =
      sampleRepo.DB.rows.map (fun p => p.ID) ∧
    (⟨2, none, none, some "USD", none, none, true⟩ : models.Payments Int Int) ∈
      (sampleRepo.DeletePayment healthy "2").DB.rows ∧
    ∃ ps,
      ((sampleRepo.DeletePayment healthy "2").repo.GetPayments healthy).responses =
        [⟨200, [("message", Value.str "Payments fetched succesfully"),
                ("data", Value.records ps)]⟩] ∧
      (⟨2, none, none, some "USD", none, none, true⟩ : models.Payments Int Int) ∈ ps :=
  ⟨⟨by unfold DB.WF; decide, by decide, by decide, by decide, rfl, rfl⟩,
    soft_delete sampleRepo healthy healthy "2" ⟨2, none, none, some "USD", none, none, false⟩
      (by unfold DB.WF; decide) (by decide) (by decide) (by decide) rfl rfl rfl⟩

/-- C8: lifecycle frame.  For every table that satisfies the primary key invariant and every
request, the table after `UpdatePayment` has the same rows in the same places with the same
key, creditorAcc, debtorAcc, currency and isDeleted (only amount and date may differ), the
table after `DeletePayment` has the same rows in the same places with the same key,
creditorAcc, debtorAcc, currency, amount and date (only isDeleted may differ), and in both
cases a row whose key is not the one the path identifier casts to is unchanged; so the stored
keys are the same before and after. -/
theorem lifecycle_frame {A T : Type} (r : Repository A T) (env : Env) (id : String)
    (body : Option (UpdateData A T)) (hwf : r.DB.WF) :
    (List.Forall₂
        (fun old new => new.ID = old.ID ∧ new.CreditorAcc = old.CreditorAcc ∧
          new.DebtorAcc = old.DebtorAcc ∧ new.Currency = old.Currency ∧
          new.IsDeleted = old.IsDeleted ∧ (env.coerce id ≠ some (old.ID : Int) → new = old))
        r.DB.rows (r.UpdatePayment env id body).DB.rows ∧
      (r.UpdatePayment env id body).DB.rows.map (fun p => p.ID) =
        r.DB.rows.map (fun p => p.ID)) ∧
    (List.Forall₂
        (fun old new => new.ID = old.ID ∧ new.CreditorAcc = old.CreditorAcc ∧
          new.DebtorAcc = old.DebtorAcc ∧ new.Currency = old.Currency ∧
          new.Amount = old.Amount ∧ new.Date = old.Date ∧
          (env.coerce id ≠ some (old.ID : Int) → new = old))
        r.DB.rows (r.DeletePayment env id).DB.rows ∧
      (r.DeletePayment env id).DB.rows.map (fun p => p.ID) =
        r.DB.rows.map (fun p => p.ID)) := by
  constructor
  · rcases UpdatePayment_DB_cases r env id body with h | ⟨d, k, -, hk, h⟩
    · rw [h]
      exact ⟨forall₂_self _ (fun p _ => ⟨rfl, rfl, rfl, rfl, rfl, fun _ => rfl⟩), rfl⟩
    · rw [h]
      constructor
      · apply forall₂_map_self
        intro p _
        by_cases hp : hasKey k p = true
        · obtain ⟨h1, h2, h3, h4, h5⟩ := setColumns_frame (updateFields d) p
          simp only [hp, if_true]
          refine ⟨h1, h2, h3, h4, h5, fun hne => absurd ?_ hne⟩
          rw [hk]
          simp only [hasKey, decide_eq_true_eq] at hp
          rw [hp]
        · simp only [hp]
          exact ⟨rfl, rfl, rfl, rfl, rfl, fun _ => rfl⟩
      · rw [← h]
        exact (UpdatePayment_same_keys r env id body).1
  · rcases DeletePayment_DB_cases r env id hwf with h | ⟨row, -, hk, h⟩
    · rw [h]
      exact ⟨forall₂_self _ (fun p _ => ⟨rfl, rfl, rfl, rfl, rfl, rfl, fun _ => rfl⟩), rfl⟩
    · rw [h]
      constructor
      · apply forall₂_map_self
        intro p _
        beta_reduce
        by_cases hp : p.ID = row.ID
        · rw [if_pos hp]
          refine ⟨rfl, rfl, rfl, rfl, rfl, rfl, fun hne => absurd ?_ hne⟩
          rw [hk, hp]
        · rw [if_neg hp]
          exact ⟨rfl, rfl, rfl, rfl, rfl, rfl, fun _ => rfl⟩
      · rw [← h]
        exact (DeletePayment_same_keys r env id hwf).1

theorem lifecycle_frame_witness :
    sampleRepo.DB.WF ∧
    (List.Forall₂
        (fun old new => new.ID = old.ID ∧ new.CreditorAcc = old.CreditorAcc ∧
          new.DebtorAcc = old.DebtorAcc ∧ new.Currency = old.Currency ∧
          new.IsDeleted = old.IsDeleted ∧ (healthy.coerce "1" ≠ some (old.ID : Int) → new = old))
        sampleRepo.DB.rows
        (sampleRepo.UpdatePayment healthy "1" (some ⟨some 200, some 20250505⟩)).DB.rows ∧
      (sampleRepo.UpdatePayment healthy "1" (some ⟨some 200, some 20250505⟩)).DB.rows.map
          (fun p => p.ID) =
        sampleRepo.DB.rows.map (fun p => p.ID)) ∧
    (List.Forall₂
        (fun old new => new.ID = old.ID ∧ new.CreditorAcc = old.CreditorAcc ∧
          new.DebtorAcc = old.DebtorAcc ∧ new.Currency = old.Currency ∧
          new.Amount = old.Amount ∧ new.Date = old.Date ∧
          (healthy.coerce "1" ≠ some (old.ID : Int) → new = old))
        sampleRepo.DB.rows (sampleRepo.DeletePayment healthy "1").DB.rows ∧
      (sampleRepo.DeletePayment healthy "1").DB.rows.map (fun p => p.ID) =
        sampleRepo.DB.rows.map (fun p => p.ID)) :=
  ⟨by unfold DB.WF; decide,
    lifecycle_frame sampleRepo healthy "1" (some ⟨some 200, some 20250505⟩)
      (by unfold DB.WF; decide)⟩

/-! ## The primary key invariant is kept by every handler -/

theorem WF_of_same_keys {A T : Type} {db db' : DB A T} (hwf : db.WF)
    (hids : db'.rows.map (fun p => p.ID) = db.rows.map (fun p => p.ID))
    (hseq : db'.seq = db.seq) : db'.WF := by
  refine ⟨?_, ?_, ?_⟩
  · rw [hids]
    exact hwf.1
  · rw [hseq]
    exact hwf.2.1
  · intro p hp
    have hmem : p.ID ∈ db'.rows.map (fun p => p.ID) := List.mem_map.mpr ⟨p, hp, rfl⟩
    rw [hids] at hmem
    obtain ⟨q, hq, hqp⟩ := List.mem_map.mp hmem
    have := hwf.2.2 q hq
    rw [hseq, ← hqp]
    exact this

theorem WF_empty {A T : Type} : ({ rows := [], seq := 1 } : DB A T).WF := by
  simp [DB.WF]

theorem WF_Create {A T : Type} (db db' : DB A T) (fault : Bool) (p : Payment A T)
    (hwf : db.WF) (h : db.Create fault p = .ok db') : db'.WF := by
  unfold DB.Create at h
  cases fault with
  | true => simp at h
  | false =>
    simp only [Bool.false_eq_true, if_false, Except.ok.injEq] at h
    subst h
    refine ⟨?_, Nat.succ_pos _, ?_⟩
    · simp only [List.map_append, List.map_cons, List.map_nil]
      rw [List.nodup_append]
      refine ⟨hwf.1, List.nodup_singleton _, ?_⟩
      intro a ha hb
      obtain ⟨q, hq, rfl⟩ := List.mem_map.mp ha
      rw [List.mem_singleton] at hb
      have := (hwf.2.2 q hq).2
      omega
    · intro q hq
      rw [List.mem_append, List.mem_singleton] at hq
      rcases hq with hq | rfl
      · have := hwf.2.2 q hq
        exact ⟨this.1, Nat.lt_succ_of_lt this.2⟩
      · exact ⟨hwf.2.1, Nat.lt_succ_self _⟩

/-- Every handler keeps the primary key invariant of the table, so every table reached from
the empty one through the handlers satisfies it. -/
theorem WF_preserved {A T : Type} [Inhabited A] [Inhabited T] (r : Repository A T) (env : Env)
    (id : String) (cbody : Option (CreateBody A T)) (ubody : Option (UpdateData A T))
    (hwf : r.DB.WF) :
    (r.CreatePayment env cbody).DB.WF ∧ (r.GetPayments env).DB = r.DB ∧
    (r.GetPaymentID env id).DB = r.DB ∧ (r.UpdatePayment env id ubody).DB.WF ∧
    (r.DeletePayment env id).DB.WF := by
  refine ⟨?_, ?_, ?_, ?_, ?_⟩
  · unfold Repository.CreatePayment
    split
    · exact hwf
    · split
      · exact hwf
      · next db h => exact WF_Create r.DB db _ _ hwf h
  · unfold Repository.GetPayments
    split <;> rfl
  · unfold Repository.GetPaymentID
    split
    · rfl
    · split <;> rfl
  · exact WF_of_same_keys hwf (UpdatePayment_same_keys r env id ubody).1
      (UpdatePayment_same_keys r env id ubody).2
  · exact WF_of_same_keys hwf (DeletePayment_same_keys r env id hwf).1
      (DeletePayment_same_keys r env id hwf).2

end PaymentsAPI
